import Mathlib

/-!
# Verification of the `vstrip` annotation-stripping tool

This development gives a shallow embedding of the core of the `vstrip` tool
(`src/tools/vstrip`): the text-level preprocessor that unwraps specification
wrapper blocks (`preprocess.rs`), the error type (`error.rs`), the
configuration record (`config.rs`), the tree-rewriting stripping visitor
(`visitor.rs`), and the string-level pipeline entry point
(`lib.rs::strip_source`).

Text is modelled as a list of byte values (`List Nat`).  The source scanner
`find_matching_brace` works directly on `source.as_bytes()` with `bytes[i] as
char` casts, so its byte-level transcription is exact.  The outer loop of
`unwrap_verus_macros` iterates `char_indices`; on ASCII input — which covers
every concrete input used below — byte iteration and char iteration coincide,
and the transcription keeps the original's byte-offset arithmetic.

The tagged syntax tree (`verus_syn`) and the pretty printer
(`verus_prettyplease`) are collaborator crates maintained in the repository
but outside the extracted sources.  The fragments of the tree touched by the
visitor are modelled from the spec's data model (mode and qualifier tags,
contract clause record, statement/expression classification); the parser and
printer themselves are kept abstract and quantified where needed.
-/

namespace VStrip

/-! ## Byte classification

`find_matching_brace` reads `bytes[i + 1] as char` (a `u8` to `char` cast,
i.e. the Latin-1 interpretation of the byte) and asks
`next_ch.is_alphanumeric() || next_ch == '_'`.  `rustIsAlphanumericByte`
reproduces Rust's `char::is_alphanumeric` on the 256 byte-cast code points:
ASCII digits and letters, plus the Latin-1 letters and numeric characters
(U+00AA, U+00B2, U+00B3, U+00B5, U+00B9, U+00BA, U+00BC–U+00BE,
U+00C0–U+00D6, U+00D8–U+00F6, U+00F8–U+00FF). -/
def rustIsAlphanumericByte (b : Nat) : Bool :=
  (48 ≤ b && b ≤ 57) || (65 ≤ b && b ≤ 90) || (97 ≤ b && b ≤ 122) ||
  b = 0xAA || b = 0xB2 || b = 0xB3 || b = 0xB5 || b = 0xB9 || b = 0xBA ||
  (0xBC ≤ b && b ≤ 0xBE) || (0xC0 ≤ b && b ≤ 0xD6) ||
  (0xD8 ≤ b && b ≤ 0xF6) || (0xF8 ≤ b && b ≤ 0xFF)

/-- The lifetime-heuristic test of `find_matching_brace`:
`next_ch.is_alphanumeric() || next_ch == '_'`. -/
def isLifetimeStartByte (b : Nat) : Bool :=
  rustIsAlphanumericByte b || b = 95

/-- ASCII whitespace bytes, matching `char::is_whitespace` on the ASCII
range (the only range exercised by the whitespace skip after `verus!`). -/
def isWhitespaceByte (b : Nat) : Bool :=
  b = 9 || b = 10 || b = 11 || b = 12 || b = 13 || b = 32

/-! ## The matching-brace scanner (`preprocess.rs::find_matching_brace`)

The loop state of `find_matching_brace`: the depth counter and the five
context flags.  The loop body is transcribed as the pure function `fmbStep`
operating on the current byte, the one-byte lookahead, the current position
and the state; it returns either the found position (`return Some(i)`), a
one-byte advance, or a two-byte advance — exactly the three ways a loop
iteration can end. -/
structure FmbState where
  depth : Int
  inString : Bool
  inChar : Bool
  escapeNext : Bool
  inComment : Bool
  inBlockComment : Bool
deriving DecidableEq, Repr

/-- Outcome of one iteration of the `find_matching_brace` loop. -/
inductive FmbAct where
  | ret (pos : Nat)
  | step1 (st : FmbState)
  | step2 (st : FmbState)
deriving DecidableEq, Repr

/-- One iteration of the `find_matching_brace` loop, transcribed branch by
branch in the source's order: pending escape; comment handling (guarded by
`!in_string && !in_char`): inside block comment, inside line comment,
comment openers `//` and `/*`; backslash; double quote; single quote with
the lifetime lookahead heuristic; brace counting. -/
def fmbStep (ch : Nat) (lookahead : Option Nat) (i : Nat) (st : FmbState) :
    FmbAct :=
  if st.escapeNext then
    .step1 { st with escapeNext := false }
  else if !st.inString && !st.inChar && st.inBlockComment then
    match lookahead with
    | some nx =>
      if ch = 42 && nx = 47 then
        .step2 { st with inBlockComment := false }
      else
        .step1 st
    | none => .step1 st
  else if !st.inString && !st.inChar && st.inComment then
    .step1 { st with inComment := if ch = 10 then false else st.inComment }
  else if !st.inString && !st.inChar && ch = 47 && lookahead = some 47 then
    .step2 { st with inComment := true }
  else if !st.inString && !st.inChar && ch = 47 && lookahead = some 42 then
    .step2 { st with inBlockComment := true }
  else if ch = 92 then
    .step1 { st with escapeNext := true }
  else if ch = 34 && !st.inChar then
    .step1 { st with inString := !st.inString }
  else if ch = 39 && !st.inString then
    match lookahead with
    | some nx =>
      if isLifetimeStartByte nx then
        .step1 st
      else
        .step1 { st with inChar := !st.inChar }
    | none => .step1 { st with inChar := !st.inChar }
  else if !st.inString && !st.inChar && !st.inComment && !st.inBlockComment
  then
    if ch = 123 then
      .step1 { st with depth := st.depth + 1 }
    else if ch = 125 then
      if st.depth - 1 = 0 then
        .ret i
      else
        .step1 { st with depth := st.depth - 1 }
    else
      .step1 st
  else
    .step1 st

/-- The scan loop of `find_matching_brace`: `rest` is the suffix of the
source starting at absolute byte position `i`. -/
def fmbRun : List Nat → Nat → FmbState → Option Nat
  | [], _, _ => none
  | ch :: rest, i, st =>
    match fmbStep ch rest.head? i st with
    | .ret p => some p
    | .step1 st' => fmbRun rest (i + 1) st'
    | .step2 st' =>
      match rest with
      | [] => none
      | _ :: rest2 => fmbRun rest2 (i + 2) st'

/-- Initial state of `find_matching_brace`: depth 1, all flags cleared. -/
def fmbInit : FmbState :=
  { depth := 1, inString := false, inChar := false, escapeNext := false,
    inComment := false, inBlockComment := false }

/-- `preprocess.rs::find_matching_brace source start`: position of the brace
closing the (already consumed) opening brace, or `none` when the scan
exhausts the input. -/
def findMatchingBrace (source : List Nat) (start : Nat) : Option Nat :=
  fmbRun (source.drop start) start fmbInit

example : findMatchingBrace [120, 125] 0 = some 1 := by decide
example : findMatchingBrace [123, 125, 125] 0 = some 2 := by decide
example : findMatchingBrace [34, 125, 34, 125] 0 = some 3 := by decide
example : findMatchingBrace [47, 47, 125, 10, 125] 0 = some 4 := by decide
example : findMatchingBrace [47, 42, 125, 42, 47, 125] 0 = some 5 := by
  decide
example : findMatchingBrace [39, 123, 39, 125] 0 = some 3 := by decide
example : findMatchingBrace [39, 97, 39, 125] 0 = none := by decide

/-! ## Errors (`error.rs::StripError`) and configuration (`config.rs::Config`)

`IoError`, `ParseError` and `WriteError` carry OS-level or parser payloads;
they are modelled with string stand-ins for the payloads, which none of the
verified code inspects. -/
inductive StripError where
  | ioError (path : String)
  | parseError (path : String) (error : String) (suggestion : String)
  | writeError (path : Option String)
  | configError (message : String)
deriving DecidableEq, Repr

/-- `config.rs::Config` (the `output` path is modelled as a string). -/
structure Config where
  output : Option String
  inPlace : Bool
  recursive : Bool
  check : Bool
  keepEmpty : Bool
  specAsComments : Bool
deriving DecidableEq, Repr

/-- `Config::new()` — everything off. -/
def Config.new : Config :=
  { output := none, inPlace := false, recursive := false, check := false,
    keepEmpty := false, specAsComments := false }

/-! ## The wrapper unwrapper (`preprocess.rs::unwrap_verus_macros`)

The loop looks for `"verus!"`, skips whitespace, expects `{`, finds the
matching `}` with `find_matching_brace`, splices the contents (plus a
newline) into the output, and resumes after the closing brace.  If the byte
after the whitespace is not `{`, that byte and the whitespace are consumed
and the literal text `verus!` is emitted.  Bytes not starting a wrapper are
copied through.

`unwrapRun fuel rest i acc` carries the unprocessed suffix `rest`
(starting at absolute position `i`), the output accumulated so far, and a
fuel counter used only to present the loop as a structural recursion: every
iteration consumes at least one input byte, so the initial fuel
`source.length` is never exhausted before the input is. -/

/-- The bytes of `"verus!"`. -/
def verusBangBytes : List Nat := [118, 101, 114, 117, 115, 33]

/-- `source[i..].starts_with("verus!")` on the suffix. -/
def startsWithVerusBang (rest : List Nat) : Bool :=
  rest.take 6 = verusBangBytes

/-- Length of the leading whitespace run (the `peek`/`next` whitespace skip
after `verus!`). -/
def countLeadingWs : List Nat → Nat
  | [] => 0
  | b :: rest => if isWhitespaceByte b then countLeadingWs rest + 1 else 0

/-- The scan loop of `unwrap_verus_macros`. -/
def unwrapRun : Nat → List Nat → Nat → List Nat →
    Except StripError (List Nat)
  | _, [], _, acc => .ok acc
  | 0, _ :: _, _, acc => .ok acc
  | fuel + 1, ch :: t, i, acc =>
    if ch = 118 && startsWithVerusBang (ch :: t) then
      let afterBang := t.drop 5
      let w := countLeadingWs afterBang
      let j := i + 6 + w
      match afterBang.drop w with
      | 123 :: afterBrace =>
        match fmbRun afterBrace (j + 1) fmbInit with
        | some braceEnd =>
          unwrapRun fuel (afterBrace.drop (braceEnd + 1 - (j + 1)))
            (braceEnd + 1)
            (acc ++ afterBrace.take (braceEnd - (j + 1)) ++ [10])
        | none => .error (.configError "Unmatched braces in verus! macro")
      | _ :: rest2 => unwrapRun fuel rest2 (j + 1) (acc ++ verusBangBytes)
      | [] => .ok (acc ++ verusBangBytes)
    else
      unwrapRun fuel t (i + 1) (acc ++ [ch])

/-- `preprocess.rs::unwrap_verus_macros`. -/
def unwrapVerusMacros (source : List Nat) : Except StripError (List Nat) :=
  unwrapRun source.length source 0 []

instance {ε α : Type} [DecidableEq ε] [DecidableEq α] :
    DecidableEq (Except ε α)
  | .error a, .error b =>
    if h : a = b then .isTrue (by rw [h])
    else .isFalse (fun hc => by cases hc; exact h rfl)
  | .error _, .ok _ => .isFalse (fun hc => by cases hc)
  | .ok _, .error _ => .isFalse (fun hc => by cases hc)
  | .ok a, .ok b =>
    if h : a = b then .isTrue (by rw [h])
    else .isFalse (fun hc => by cases hc; exact h rfl)

/-- Byte list of an ASCII string. -/
def asciiBytes (s : String) : List Nat :=
  s.data.map Char.toNat

example :
    unwrapVerusMacros (asciiBytes "verus! \x7b fn foo() \x7b\x7d \x7d") =
      .ok (asciiBytes " fn foo() \x7b\x7d \n") := by decide

example :
    unwrapVerusMacros (asciiBytes "fn bar() \x7b\x7d") =
      .ok (asciiBytes "fn bar() \x7b\x7d") := by decide

example :
    unwrapVerusMacros (asciiBytes "verus! \x7b fn f() \x7b\x7d") =
      .error (.configError "Unmatched braces in verus! macro") := by decide

/-! ## The tagged tree (`verus_syn` fragment)

Modelled from the spec: the parser collaborator's tagged tree (spec §3).
The `verus_syn` crate lives in the repository outside the extracted
sources; the shapes below carry exactly the tags and children that
`visitor.rs` reads or rewrites, with `other`-style constructors for
everything it passes through.  Contract-clause expressions are carried as
their token strings (the visitor only ever stringifies them). -/

/-- `verus_syn::FnMode`; `default` is the executable mode. -/
inductive FnMode where
  | default
  | spec
  | specChecked
  | proof
  | proofAxiomMode
deriving DecidableEq, Repr

/-- `verus_syn::DataMode` on struct/enum fields. -/
inductive DataMode where
  | default
  | ghost
  | tracked
deriving DecidableEq, Repr

/-- `verus_syn::InvariantNameSet` (the `opens_invariants` clause payload). -/
inductive InvariantNameSet where
  | anySet
  | noneSet
  | listSet (exprs : List String)
  | setExpr (expr : String)
deriving DecidableEq, Repr

/-- `verus_syn::SignatureSpec`: the contract clause record attached to a
signature.  `recommends` carries its optional `via` justification and
`unwind` its optional `when` trigger. -/
structure SignatureSpec where
  requiresClause : Option (List String)
  recommendsClause : Option (List String × Option String)
  ensuresClause : Option (List String)
  defaultEnsuresClause : Option (List String)
  returnsClause : Option (List String)
  invariantsClause : Option InvariantNameSet
  unwindClause : Option (Option String)
  decreasesClause : Option (List String)
deriving DecidableEq, Repr

/-- `SignatureSpec::erase_spec_fields()` — every clause cleared. -/
def erasedSpec : SignatureSpec :=
  { requiresClause := none, recommendsClause := none, ensuresClause := none,
    defaultEnsuresClause := none, returnsClause := none,
    invariantsClause := none, unwindClause := none, decreasesClause := none }

/-- Types, as far as `is_ghost_or_tracked_type` inspects them: a path is its
segment identifiers. -/
inductive Ty where
  | path (segments : List String)
  | otherTy
deriving DecidableEq, Repr

/-- `verus_syn::FnArgKind`. -/
inductive FnArgKind where
  | typed (ty : Ty)
  | receiver
deriving DecidableEq, Repr

/-- `verus_syn::FnArg`: the `tracked` token plus the kind. -/
structure FnArg where
  tracked : Bool
  kind : FnArgKind
deriving DecidableEq, Repr

/-- A struct/enum field with its data mode. -/
structure Field where
  name : String
  mode : DataMode
deriving DecidableEq, Repr

/-- `verus_syn::Fields` (named, unnamed/tuple, or unit). -/
inductive Fields where
  | named (fields : List Field)
  | unnamed (fields : List Field)
  | unit
deriving DecidableEq, Repr

/-- `verus_syn::UnOp`, reduced to the tags `is_proof_expr` matches on. -/
inductive UnOp where
  | proofOp
  | forallOp
  | existsOp
  | chooseOp
  | otherOp
deriving DecidableEq, Repr

/-- `verus_syn::BinOp`, reduced to the tags `is_proof_expr` matches on. -/
inductive BinOp where
  | imply
  | exply
  | equiv
  | otherBin
deriving DecidableEq, Repr

mutual
/-- Expressions, as far as the visitor classifies or recurses into them.
`blockWrap` stands for any expression carrying a nested block (an `if`
branch, a `loop` body, a plain block expression, …); `strLit` is a string
literal carrying its text (which a printer must reproduce); `lit` is any
other leaf the visitor passes through. -/
inductive Expr where
  | unary (op : UnOp) (arg : Expr)
  | binary (op : BinOp) (lhs rhs : Expr)
  | view (arg : Expr)
  | bigAnd (arg : Expr)
  | bigOr (arg : Expr)
  | assertExpr (arg : Expr)
  | assumeExpr (arg : Expr)
  | assertForallExpr (arg : Expr)
  | macroCall (name : String)
  | strLit (content : List Nat)
  | blockWrap (b : Block)
  | lit

/-- A block: its statement list. -/
inductive Block where
  | mk (stmts : List Stmt)

/-- Statements: local bindings with their `ghost`/`tracked` tokens,
expression statements, macro statements (carrying the macro path's last
segment), and anything else. -/
inductive Stmt where
  | localStmt (ghost : Bool) (tracked : Bool) (init : Option Expr)
  | exprStmt (e : Expr) (semi : Bool)
  | macroStmt (name : String)
  | otherStmt
end

/-- The statements of a block. -/
def Block.stmts : Block → List Stmt
  | .mk stmts => stmts

/-- `verus_syn::Visibility`, as far as `matches!(vis, Visibility::Public(_))`
inspects it. -/
inductive Visibility where
  | publicVis
  | inherited
deriving DecidableEq, Repr

/-- A function signature: identifier, mode, contract record, inputs. -/
structure Signature where
  ident : String
  mode : FnMode
  spec : SignatureSpec
  inputs : List FnArg
deriving DecidableEq, Repr

/-- A free function item (`verus_syn::ItemFn`).  Attributes are modelled as
their rendered doc-comment text. -/
structure ItemFn where
  attrs : List String
  vis : Visibility
  sig : Signature
  block : Block

/-- An impl-block method (`verus_syn::ImplItemFn`). -/
structure ImplItemFn where
  attrs : List String
  vis : Visibility
  sig : Signature
  block : Block

/-- A trait method (`verus_syn::TraitItemFn`), with an optional default
body. -/
structure TraitItemFn where
  attrs : List String
  sig : Signature
  defaultBody : Option Block

/-- A struct item. -/
structure ItemStruct where
  ident : String
  fields : Fields
deriving DecidableEq, Repr

/-- An enum variant. -/
structure Variant where
  name : String
  fields : Fields
deriving DecidableEq, Repr

/-- An enum item. -/
structure ItemEnum where
  ident : String
  variants : List Variant
deriving DecidableEq, Repr

/-- An item of a trait declaration. -/
inductive TraitItem where
  | fnItem (f : TraitItemFn)
  | otherItem

/-- A trait declaration. -/
structure ItemTrait where
  ident : String
  items : List TraitItem

/-- An item of an impl block. -/
inductive ImplItem where
  | fnItem (f : ImplItemFn)
  | otherItem

/-- An impl block. -/
structure ItemImpl where
  items : List ImplItem

/-- Top-level items (`verus_syn::Item`), with `otherItem` for every variant
the visitor passes through untouched. -/
inductive Item where
  | fnItem (f : ItemFn)
  | structItem (s : ItemStruct)
  | enumItem (e : ItemEnum)
  | traitItem (t : ItemTrait)
  | implItem (im : ItemImpl)
  | otherItem

/-- A parsed file (`verus_syn::File`): its item list. -/
structure File where
  items : List Item

/-! ## The stripping visitor (`visitor.rs`)

`StripVisitor` carries a configuration reference plus bookkeeping fields
(`ghost_depth`, `inside_exec_fn`, `warnings`) that are written but never
read by any behaviour-relevant path, so the visitor is modelled as pure
functions parameterised by the one configuration bit it reads,
`spec_as_comments`. -/

/-- `visitor.rs::is_spec_or_proof_fn`. -/
def isSpecOrProofFn : FnMode → Bool
  | .spec | .specChecked | .proof | .proofAxiomMode => true
  | .default => false

/-- `visitor.rs::spec_exprs_to_string`: token strings joined with a comma
and space. -/
def specExprsToString (exprs : List String) : String :=
  String.intercalate ", " exprs

/-- `visitor.rs::create_spec_comment_attrs`: the rendered doc-comment lines
for a contract record — empty when no clause is present, otherwise a header
line followed by one line per present clause, with the marker `///` for
public functions and `//` otherwise.  The `decreases` clause is skipped. -/
def createSpecCommentAttrs (spec : SignatureSpec) (isPub : Bool) :
    List String :=
  let comments :=
    (match spec.requiresClause with
     | some exprs => ["requires " ++ specExprsToString exprs]
     | none => []) ++
    (match spec.recommendsClause with
     | some (exprs, viaArg) =>
       ["recommends " ++ specExprsToString exprs ++
        (match viaArg with
         | some v => " via " ++ v
         | none => "")]
     | none => []) ++
    (match spec.ensuresClause with
     | some exprs => ["ensures " ++ specExprsToString exprs]
     | none => []) ++
    (match spec.defaultEnsuresClause with
     | some exprs => ["default_ensures " ++ specExprsToString exprs]
     | none => []) ++
    (match spec.returnsClause with
     | some exprs => ["returns " ++ specExprsToString exprs]
     | none => []) ++
    (match spec.invariantsClause with
     | some invSet =>
       ["opens_invariants " ++
        (match invSet with
         | .anySet => "any"
         | .noneSet => "none"
         | .listSet exprs => "[" ++ String.intercalate ", " exprs ++ "]"
         | .setExpr e => e)]
     | none => []) ++
    (match spec.unwindClause with
     | some whenArg =>
       ["no_unwind" ++
        (match whenArg with
         | some w => " when " ++ w
         | none => "")]
     | none => [])
  if comments = [] then []
  else
    let marker := if isPub then "///" else "//"
    (marker ++ " ## Verus Annotations") ::
      comments.map (fun c => marker ++ " " ++ c)

/-- `visitor.rs::is_ghost_or_tracked_type`: the path's last segment is
`Ghost` or `Tracked`. -/
def isGhostOrTrackedType : Ty → Bool
  | .path segments =>
    match segments.getLast? with
    | some ident => ident = "Ghost" || ident = "Tracked"
    | none => false
  | .otherTy => false

/-- `visitor.rs::is_ghost_or_tracked_arg`: the `tracked` token is present,
or the argument's type is `Ghost<T>`/`Tracked<T>`. -/
def isGhostOrTrackedArg (arg : FnArg) : Bool :=
  arg.tracked ||
    (match arg.kind with
     | .typed ty => isGhostOrTrackedType ty
     | .receiver => false)

/-- `visitor.rs::is_ghost_or_tracked_field`. -/
def isGhostOrTrackedField (field : Field) : Bool :=
  match field.mode with
  | .ghost | .tracked => true
  | .default => false

/-- `visitor.rs::is_proof_expr`: the expression heads removed at statement
level. -/
def isProofExpr : Expr → Bool
  | .unary op _ =>
    (match op with
     | .proofOp | .forallOp | .existsOp | .chooseOp => true
     | .otherOp => false)
  | .view _ => true
  | .bigAnd _ => true
  | .bigOr _ => true
  | .binary op _ _ =>
    (match op with
     | .imply | .exply | .equiv => true
     | .otherBin => false)
  | .assertExpr _ => true
  | .assumeExpr _ => true
  | .assertForallExpr _ => true
  | .macroCall name =>
    name = "assert" || name = "assume" || name = "proof" || name = "calc"
  | _ => false

/-- `visitor.rs::is_proof_macro`: the fixed removal set for macro
statements. -/
def isProofMacroName (name : String) : Bool :=
  name = "proof" || name = "calc" || name = "assert_forall_by" ||
  name = "assert_by" || name = "open_invariant" ||
  name = "open_local_invariant"

/-- The retention test of `visit_block_mut`'s `retain` call. -/
def keepStmt : Stmt → Bool
  | .localStmt ghost tracked _ => !ghost && !tracked
  | .exprStmt e _ => !isProofExpr e
  | .macroStmt name => !isProofMacroName name
  | .otherStmt => true

mutual
/-- The default `visit_expr_mut` recursion: rebuild the expression, sending
every nested block through `visit_block_mut`. -/
def visitExpr : Expr → Expr
  | .unary op arg => .unary op (visitExpr arg)
  | .binary op lhs rhs => .binary op (visitExpr lhs) (visitExpr rhs)
  | .view arg => .view (visitExpr arg)
  | .bigAnd arg => .bigAnd (visitExpr arg)
  | .bigOr arg => .bigOr (visitExpr arg)
  | .assertExpr arg => .assertExpr (visitExpr arg)
  | .assumeExpr arg => .assumeExpr (visitExpr arg)
  | .assertForallExpr arg => .assertForallExpr (visitExpr arg)
  | .macroCall name => .macroCall name
  | .strLit content => .strLit content
  | .blockWrap b => .blockWrap (visitBlock b)
  | .lit => .lit

/-- `visit_block_mut`: visit every statement, then retain the
non-ghost/non-proof ones. -/
def visitBlock : Block → Block
  | .mk stmts => .mk ((visitStmts stmts).filter keepStmt)

/-- Statement-list traversal (the `for stmt in &mut block.stmts` loop). -/
def visitStmts : List Stmt → List Stmt
  | [] => []
  | s :: rest => visitStmt s :: visitStmts rest

/-- The default `visit_stmt_mut` recursion on a single statement. -/
def visitStmt : Stmt → Stmt
  | .localStmt ghost tracked (some e) =>
    .localStmt ghost tracked (some (visitExpr e))
  | .localStmt ghost tracked none => .localStmt ghost tracked none
  | .exprStmt e semi => .exprStmt (visitExpr e) semi
  | .macroStmt name => .macroStmt name
  | .otherStmt => .otherStmt
end

/-- `visit_item_fn_mut` (reached only for non-spec/proof free functions):
optionally append the rendered contract comments, erase the contract
record, reset the mode, drop ghost/tracked parameters, and visit the
body. -/
def visitItemFn (specAsComments : Bool) (f : ItemFn) : ItemFn :=
  let attrs :=
    if specAsComments then
      f.attrs ++
        createSpecCommentAttrs f.sig.spec (f.vis = Visibility.publicVis)
    else
      f.attrs
  { attrs := attrs
    vis := f.vis
    sig :=
      { ident := f.sig.ident
        mode := .default
        spec := erasedSpec
        inputs := f.sig.inputs.filter (fun arg => !isGhostOrTrackedArg arg) }
    block := visitBlock f.block }

/-- `visit_impl_item_fn_mut`: spec/proof methods are skipped (returned
unchanged); executable ones are rewritten like free functions. -/
def visitImplItemFn (specAsComments : Bool) (f : ImplItemFn) : ImplItemFn :=
  if isSpecOrProofFn f.sig.mode then f
  else
    let attrs :=
      if specAsComments then
        f.attrs ++
          createSpecCommentAttrs f.sig.spec (f.vis = Visibility.publicVis)
      else
        f.attrs
    { attrs := attrs
      vis := f.vis
      sig :=
        { ident := f.sig.ident
          mode := .default
          spec := erasedSpec
          inputs :=
            f.sig.inputs.filter (fun arg => !isGhostOrTrackedArg arg) }
      block := visitBlock f.block }

/-- `visit_trait_item_fn_mut`: spec/proof methods are skipped; executable
ones are rewritten (trait methods count as public for the comment marker),
visiting the default body when present. -/
def visitTraitItemFn (specAsComments : Bool) (f : TraitItemFn) :
    TraitItemFn :=
  if isSpecOrProofFn f.sig.mode then f
  else
    let attrs :=
      if specAsComments then
        f.attrs ++ createSpecCommentAttrs f.sig.spec true
      else
        f.attrs
    { attrs := attrs
      sig :=
        { ident := f.sig.ident
          mode := .default
          spec := erasedSpec
          inputs :=
            f.sig.inputs.filter (fun arg => !isGhostOrTrackedArg arg) }
      defaultBody := f.defaultBody.map visitBlock }

/-- The ghost/tracked field filter applied by `visit_item_struct_mut` and
`visit_item_enum_mut` to each `Fields` value. -/
def filterFields : Fields → Fields
  | .named fields =>
    .named (fields.filter (fun field => !isGhostOrTrackedField field))
  | .unnamed fields =>
    .unnamed (fields.filter (fun field => !isGhostOrTrackedField field))
  | .unit => .unit

/-- `visit_item_struct_mut`. -/
def visitItemStruct (s : ItemStruct) : ItemStruct :=
  { s with fields := filterFields s.fields }

/-- `visit_item_enum_mut`: filter each variant's fields independently. -/
def visitItemEnum (e : ItemEnum) : ItemEnum :=
  { e with
    variants := e.variants.map (fun v => { v with fields := filterFields v.fields }) }

/-- Dispatch over trait items (default `visit_trait_item_mut`). -/
def visitTraitItem (specAsComments : Bool) : TraitItem → TraitItem
  | .fnItem f => .fnItem (visitTraitItemFn specAsComments f)
  | .otherItem => .otherItem

/-- Dispatch over impl items (default `visit_impl_item_mut`). -/
def visitImplItem (specAsComments : Bool) : ImplItem → ImplItem
  | .fnItem f => .fnItem (visitImplItemFn specAsComments f)
  | .otherItem => .otherItem

/-- `visit_item_mut`: spec/proof free functions are left for the parent's
filter; everything else is visited. -/
def visitItem (specAsComments : Bool) : Item → Item
  | .fnItem f =>
    if isSpecOrProofFn f.sig.mode then .fnItem f
    else .fnItem (visitItemFn specAsComments f)
  | .structItem s => .structItem (visitItemStruct s)
  | .enumItem e => .enumItem (visitItemEnum e)
  | .traitItem t =>
    .traitItem { t with items := t.items.map (visitTraitItem specAsComments) }
  | .implItem im =>
    .implItem { im with items := im.items.map (visitImplItem specAsComments) }
  | .otherItem => .otherItem

/-- The retention test of `visit_file_mut`'s `retain` call: drop top-level
spec/proof functions, keep all other items. -/
def keepItem : Item → Bool
  | .fnItem f => !isSpecOrProofFn f.sig.mode
  | _ => true

/-- `visit_file_mut`: visit all items, then filter out top-level spec/proof
functions. -/
def visitFile (specAsComments : Bool) (file : File) : File :=
  { items := (file.items.map (visitItem specAsComments)).filter keepItem }

/-! ## The string-level pipeline (`lib.rs::strip_source`)

`strip_source(source, _config)` unwraps the wrapper blocks, hands the text
to the parser, runs the visitor, and pretty-prints the result.  The
configuration parameter is named `_config` and never read, and the visitor
is constructed by `StripVisitor::new()` without being handed the
configuration, so the body runs with no option set.  The parser and printer
collaborators are abstract parameters here (modelled from the spec, §6). -/
def stripSource (parse : List Nat → Except String File)
    (print : File → List Nat) (source : List Nat) (_config : Config) :
    Except StripError (List Nat) :=
  match unwrapVerusMacros source with
  | .error e => .error e
  | .ok preprocessed =>
    match parse preprocessed with
    | .error e =>
      .error (.parseError "<string>" e "Ensure the code is valid Verus syntax")
    | .ok file => .ok (print (visitFile false file))

/-! ## General lemmas -/

/-- Filtering with the negation of `p` keeps `length − countP p` elements. -/
theorem length_filter_not_eq_sub {α : Type} (p : α → Bool) (l : List α) :
    (l.filter (fun a => !p a)).length = l.length - l.countP p := by
  induction l with
  | nil => rfl
  | cons a t ih =>
    have hle : t.countP p ≤ t.length := List.countP_le_length p
    cases h : p a <;>
      simp [List.filter_cons, List.countP_cons, h, ih, List.length_cons] <;>
      try omega

/-- Filtering twice with the same predicate filters once. -/
theorem filter_idem {α : Type} (p : α → Bool) (l : List α) :
    (l.filter p).filter p = l.filter p := by
  rw [List.filter_filter]
  simp

/-! ## Idempotence of the visitor -/

/-- `is_proof_expr` looks only at the expression head, which the default
recursion preserves. -/
theorem isProofExpr_visitExpr (e : Expr) :
    isProofExpr (visitExpr e) = isProofExpr e := by
  cases e <;> rfl

/-- The statement retention test is unchanged by visiting the statement. -/
theorem keepStmt_visitStmt (s : Stmt) :
    keepStmt (visitStmt s) = keepStmt s := by
  cases s with
  | localStmt g t init => cases init <;> rfl
  | exprStmt e semi => simp [visitStmt, keepStmt, isProofExpr_visitExpr]
  | macroStmt name => rfl
  | otherStmt => rfl

mutual
/-- Visiting an expression twice is the same as visiting it once. -/
theorem visitExpr_idem : ∀ e : Expr, visitExpr (visitExpr e) = visitExpr e
  | .unary op arg => by simp [visitExpr, visitExpr_idem arg]
  | .binary op lhs rhs => by
    simp [visitExpr, visitExpr_idem lhs, visitExpr_idem rhs]
  | .view arg => by simp [visitExpr, visitExpr_idem arg]
  | .bigAnd arg => by simp [visitExpr, visitExpr_idem arg]
  | .bigOr arg => by simp [visitExpr, visitExpr_idem arg]
  | .assertExpr arg => by simp [visitExpr, visitExpr_idem arg]
  | .assumeExpr arg => by simp [visitExpr, visitExpr_idem arg]
  | .assertForallExpr arg => by simp [visitExpr, visitExpr_idem arg]
  | .macroCall name => rfl
  | .strLit content => rfl
  | .blockWrap b => by simp [visitExpr, visitBlock_idem b]
  | .lit => rfl

/-- Visiting a block twice is the same as visiting it once. -/
theorem visitBlock_idem : ∀ b : Block, visitBlock (visitBlock b) = visitBlock b
  | .mk stmts => by
    simp only [visitBlock]
    exact congrArg Block.mk (visitStmts_filter_idem stmts)

/-- The visit-then-filter pass of `visit_block_mut` is idempotent on
statement lists. -/
theorem visitStmts_filter_idem : ∀ l : List Stmt,
    (visitStmts ((visitStmts l).filter keepStmt)).filter keepStmt =
      (visitStmts l).filter keepStmt
  | [] => rfl
  | s :: rest => by
    have hidem := visitStmt_idem s
    have hrest := visitStmts_filter_idem rest
    cases hkeep : keepStmt (visitStmt s) with
    | true =>
      simp [visitStmts, List.filter_cons, hkeep, hidem,
        keepStmt_visitStmt, hrest]
    | false =>
      simp [visitStmts, List.filter_cons, hkeep, hrest]

/-- Visiting a statement twice is the same as visiting it once. -/
theorem visitStmt_idem : ∀ s : Stmt, visitStmt (visitStmt s) = visitStmt s
  | .localStmt g t (some e) => by simp [visitStmt, visitExpr_idem e]
  | .localStmt g t none => rfl
  | .exprStmt e semi => by simp [visitStmt, visitExpr_idem e]
  | .macroStmt name => rfl
  | .otherStmt => rfl
end

/-- No comment lines are rendered from an erased contract record. -/
theorem createSpecCommentAttrs_erased (isPub : Bool) :
    createSpecCommentAttrs erasedSpec isPub = [] := rfl

/-- The reset mode is not a spec/proof mode. -/
theorem isSpecOrProofFn_default : isSpecOrProofFn .default = false := rfl

/-- `visit_item_fn_mut` is idempotent. -/
theorem visitItemFn_idem (b : Bool) (f : ItemFn) :
    visitItemFn b (visitItemFn b f) = visitItemFn b f := by
  cases b <;>
    simp [visitItemFn, createSpecCommentAttrs_erased, filter_idem,
      visitBlock_idem]

/-- `visit_impl_item_fn_mut` is idempotent. -/
theorem visitImplItemFn_idem (b : Bool) (f : ImplItemFn) :
    visitImplItemFn b (visitImplItemFn b f) = visitImplItemFn b f := by
  cases hmode : isSpecOrProofFn f.sig.mode with
  | true => simp [visitImplItemFn, hmode]
  | false =>
    cases b <;>
      simp [visitImplItemFn, hmode, isSpecOrProofFn_default,
        createSpecCommentAttrs_erased, filter_idem, visitBlock_idem]

/-- `visit_trait_item_fn_mut` is idempotent. -/
theorem visitTraitItemFn_idem (b : Bool) (f : TraitItemFn) :
    visitTraitItemFn b (visitTraitItemFn b f) = visitTraitItemFn b f := by
  cases hmode : isSpecOrProofFn f.sig.mode with
  | true => simp [visitTraitItemFn, hmode]
  | false =>
    cases hbody : f.defaultBody <;> cases b <;>
      simp [visitTraitItemFn, hmode, isSpecOrProofFn_default,
        createSpecCommentAttrs_erased, filter_idem, visitBlock_idem, hbody]

/-- The field filter is idempotent. -/
theorem filterFields_idem (fs : Fields) :
    filterFields (filterFields fs) = filterFields fs := by
  cases fs <;> simp [filterFields, filter_idem]

/-- `visit_item_struct_mut` is idempotent. -/
theorem visitItemStruct_idem (s : ItemStruct) :
    visitItemStruct (visitItemStruct s) = visitItemStruct s := by
  simp [visitItemStruct, filterFields_idem]

/-- `visit_item_enum_mut` is idempotent. -/
theorem visitItemEnum_idem (e : ItemEnum) :
    visitItemEnum (visitItemEnum e) = visitItemEnum e := by
  simp only [visitItemEnum, List.map_map]
  refine congrArg _ (List.map_congr_left fun v _ => ?_)
  simp [filterFields_idem]

/-- Trait-item dispatch is idempotent. -/
theorem visitTraitItem_idem (b : Bool) (it : TraitItem) :
    visitTraitItem b (visitTraitItem b it) = visitTraitItem b it := by
  cases it <;> simp [visitTraitItem, visitTraitItemFn_idem]

/-- Impl-item dispatch is idempotent. -/
theorem visitImplItem_idem (b : Bool) (it : ImplItem) :
    visitImplItem b (visitImplItem b it) = visitImplItem b it := by
  cases it <;> simp [visitImplItem, visitImplItemFn_idem]

/-- The item retention test is unchanged by visiting the item. -/
theorem keepItem_visitItem (b : Bool) (it : Item) :
    keepItem (visitItem b it) = keepItem it := by
  cases it with
  | fnItem f =>
    cases hmode : isSpecOrProofFn f.sig.mode <;>
      simp [visitItem, keepItem, hmode, visitItemFn, isSpecOrProofFn_default]
  | structItem s => rfl
  | enumItem e => rfl
  | traitItem t => rfl
  | implItem im => rfl
  | otherItem => rfl

/-- Visiting an item retained by the file-level filter twice is the same as
visiting it once. -/
theorem visitItem_idem_of_keep (b : Bool) (it : Item)
    (h : keepItem (visitItem b it) = true) :
    visitItem b (visitItem b it) = visitItem b it := by
  cases it with
  | fnItem f =>
    cases hmode : isSpecOrProofFn f.sig.mode with
    | true =>
      rw [keepItem_visitItem] at h
      simp [keepItem, hmode] at h
    | false =>
      simp [visitItem, hmode, isSpecOrProofFn_default, visitItemFn,
        createSpecCommentAttrs_erased, filter_idem, visitBlock_idem]
  | structItem s => simp [visitItem, visitItemStruct_idem]
  | enumItem e => simp [visitItem, visitItemEnum_idem]
  | traitItem t =>
    simp only [visitItem, List.map_map, Item.traitItem.injEq,
      ItemTrait.mk.injEq, true_and]
    exact List.map_congr_left fun x _ => visitTraitItem_idem b x
  | implItem im =>
    simp only [visitItem, List.map_map, Item.implItem.injEq,
      ItemImpl.mk.injEq]
    exact List.map_congr_left fun x _ => visitImplItem_idem b x
  | otherItem => rfl

/-- The visit-then-filter pass of `visit_file_mut` is idempotent on item
lists. -/
theorem visitItems_filter_idem (b : Bool) (l : List Item) :
    (((l.map (visitItem b)).filter keepItem).map (visitItem b)).filter
        keepItem =
      (l.map (visitItem b)).filter keepItem := by
  induction l with
  | nil => rfl
  | cons it rest ih =>
    cases hkeep : keepItem (visitItem b it) with
    | true =>
      simp [List.map_cons, List.filter_cons, hkeep,
        visitItem_idem_of_keep b it hkeep, keepItem_visitItem, ih]
    | false =>
      simp [List.map_cons, List.filter_cons, hkeep, ih]

/-- `visit_file_mut` is idempotent. -/
theorem visitFile_idem (b : Bool) (file : File) :
    visitFile b (visitFile b file) = visitFile b file := by
  simp only [visitFile]
  exact congrArg File.mk (visitItems_filter_idem b file.items)

/-! ## Lemmas about the unwrapper scan -/

/-- The unwrap loop copies through any prefix free of the byte `v`
(118). -/
theorem unwrapRun_append_no_v (pre : List Nat) (hv : 118 ∉ pre) :
    ∀ (fuel : Nat) (rest : List Nat) (i : Nat) (acc : List Nat),
      unwrapRun (pre.length + fuel) (pre ++ rest) i acc =
        unwrapRun fuel rest (i + pre.length) (acc ++ pre) := by
  induction pre with
  | nil => intro fuel rest i acc; simp
  | cons b pre' ih =>
    have hb : b ≠ 118 := fun h => hv (h ▸ List.mem_cons_self b pre')
    have hv' : 118 ∉ pre' := fun h => hv (List.mem_cons_of_mem b h)
    intro fuel rest i acc
    have hlen : (b :: pre').length + fuel = (pre'.length + fuel) + 1 := by
      simp [List.length_cons]; omega
    rw [hlen]
    show unwrapRun ((pre'.length + fuel) + 1) (b :: (pre' ++ rest)) i acc = _
    rw [unwrapRun]
    simp only [hb, decide_eq_true_eq, false_and, Bool.false_and, if_neg,
      Bool.false_eq_true, not_false_eq_true]
    rw [ih hv' fuel rest (i + 1) (acc ++ [b])]
    simp [List.append_assoc, List.length_cons]
    congr 1
    omega

/-- Hitting `verus!{` whose brace is never matched makes the unwrap loop
fail with the unmatched-braces error. -/
theorem unwrapRun_wrapper_unmatched (tail : List Nat) (i : Nat)
    (acc : List Nat) (hfmb : fmbRun tail (i + 7) fmbInit = none) :
    unwrapRun (tail.length + 7) (verusBangBytes ++ 123 :: tail) i acc =
      .error (.configError "Unmatched braces in verus! macro") := by
  have h7 : tail.length + 7 = (tail.length + 6) + 1 := by omega
  rw [h7]
  show unwrapRun ((tail.length + 6) + 1)
      (118 :: (101 :: 114 :: 117 :: 115 :: 33 :: 123 :: tail)) i acc = _
  rw [unwrapRun]
  have hsw : startsWithVerusBang
      (118 :: 101 :: 114 :: 117 :: 115 :: 33 :: 123 :: tail) = true := by
    simp [startsWithVerusBang, verusBangBytes, List.take]
  simp only [hsw, decide_eq_true_eq, and_true, if_pos, List.drop,
    Bool.and_true, decide_True, true_and]
  have hws : countLeadingWs (123 :: tail) = 0 := by
    simp [countLeadingWs, isWhitespaceByte]
  simp only [List.drop_succ_cons, List.drop_zero] at *
  simp only [hws, List.drop_zero]
  have : i + 6 + 0 + 1 = i + 7 := by omega
  simp only [this, hfmb]

/-! ## Spec-side rendering definitions (for the contract-to-comment claim)

`specClauseLines` and `specHasClause` restate the spec's description of the
comment block: one line per present clause, in the fixed order requires,
recommends (with its `via` suffix), ensures, default_ensures, returns,
invariants (any / none / bracketed list / set expression), unwind (with its
`when` suffix); `decreases` is never rendered and does not count as a
present clause. -/
def specClauseLines (spec : SignatureSpec) : List String :=
  (match spec.requiresClause with
   | some exprs => ["requires " ++ specExprsToString exprs]
   | none => []) ++
  (match spec.recommendsClause with
   | some (exprs, viaArg) =>
     ["recommends " ++ specExprsToString exprs ++
      (match viaArg with
       | some v => " via " ++ v
       | none => "")]
   | none => []) ++
  (match spec.ensuresClause with
   | some exprs => ["ensures " ++ specExprsToString exprs]
   | none => []) ++
  (match spec.defaultEnsuresClause with
   | some exprs => ["default_ensures " ++ specExprsToString exprs]
   | none => []) ++
  (match spec.returnsClause with
   | some exprs => ["returns " ++ specExprsToString exprs]
   | none => []) ++
  (match spec.invariantsClause with
   | some invSet =>
     ["opens_invariants " ++
      (match invSet with
       | .anySet => "any"
       | .noneSet => "none"
       | .listSet exprs => "[" ++ String.intercalate ", " exprs ++ "]"
       | .setExpr e => e)]
   | none => []) ++
  (match spec.unwindClause with
   | some whenArg =>
     ["no_unwind" ++
      (match whenArg with
       | some w => " when " ++ w
       | none => "")]
   | none => [])

/-- At least one renderable clause is present (`decreases` excluded). -/
def specHasClause (spec : SignatureSpec) : Bool :=
  spec.requiresClause.isSome || spec.recommendsClause.isSome ||
  spec.ensuresClause.isSome || spec.defaultEnsuresClause.isSome ||
  spec.returnsClause.isSome || spec.invariantsClause.isSome ||
  spec.unwindClause.isSome

/-- The rendered clause list is empty exactly when no clause is present. -/
theorem specClauseLines_eq_nil_iff (sp : SignatureSpec) :
    specClauseLines sp = [] ↔ specHasClause sp = false := by
  obtain ⟨r, rc, en, de, re, inv, unw, dec⟩ := sp
  cases r <;> cases rc <;> cases en <;> cases de <;> cases re <;>
    cases inv <;> cases unw <;>
    simp [specClauseLines, specHasClause]

/-! ## Concrete trees used by the counterexamples and witnesses -/

/-- A spec-mode method sitting inside an impl block. -/
def specImplMethod : ImplItemFn :=
  { attrs := []
    vis := .inherited
    sig :=
      { ident := "spec_compare", mode := .spec, spec := erasedSpec,
        inputs := [] }
    block := .mk [] }

/-- A file whose only item is an impl block containing `specImplMethod`. -/
def specImplFile : File :=
  ⟨[.implItem ⟨[.fnItem specImplMethod]⟩]⟩

/-- An executable free function with no annotations. -/
def plainExecFn : ItemFn :=
  { attrs := []
    vis := .inherited
    sig :=
      { ident := "main", mode := .default, spec := erasedSpec, inputs := [] }
    block := .mk [] }

/-- A tracked parameter (the `tracked` token is present). -/
def trackedArg : FnArg :=
  { tracked := true, kind := .typed (.path ["u32"]) }

/-- A proof-mode impl method that takes one tracked parameter. -/
def proofImplMethodTracked : ImplItemFn :=
  { attrs := []
    vis := .inherited
    sig :=
      { ident := "lemma_helper", mode := .proof, spec := erasedSpec,
        inputs := [trackedArg] }
    block := .mk [] }

/-- A file whose only item is an impl block containing
`proofImplMethodTracked`. -/
def proofImplTrackedFile : File :=
  ⟨[.implItem ⟨[.fnItem proofImplMethodTracked]⟩]⟩

/-- A proof-mode impl method with a non-empty `requires` clause and no
attributes. -/
def proofImplMethodRequires : ImplItemFn :=
  { attrs := []
    vis := .publicVis
    sig :=
      { ident := "lemma_mono", mode := .proof,
        spec := { erasedSpec with requiresClause := some ["x > 0"] },
        inputs := [] }
    block := .mk [] }

/-- A file whose only item is an impl block containing
`proofImplMethodRequires`. -/
def proofImplRequiresFile : File :=
  ⟨[.implItem ⟨[.fnItem proofImplMethodRequires]⟩]⟩

/-- A trivial parser collaborator used to instantiate the quantified
pipeline theorems: every text parses to the empty file. -/
def toyParse : List Nat → Except String File :=
  fun _ => .ok ⟨[]⟩

/-- A trivial printer collaborator: every file prints to the empty text. -/
def toyPrint : File → List Nat :=
  fun _ => []

/-! ## The claims -/

/-- Claim C1, counterexample: a spec-mode method inside an impl block is
not removed — the file comes out of the visitor completely unchanged, with
an item carrying the method's identity (`spec_compare`) still present.
Under the claim, no item with that identity may appear in the output. -/
theorem impl_proof_method_retained :
    isSpecOrProofFn specImplMethod.sig.mode = true ∧
    visitFile false specImplFile = specImplFile ∧
    (visitFile false specImplFile).items =
      [Item.implItem ⟨[ImplItem.fnItem specImplMethod]⟩] :=
  ⟨rfl, rfl, rfl⟩

/-- Claim C1, amended: the stripping visitor removes non-executable
functions only when they occur as direct items of the file; spec/proof
methods inside impl blocks and trait declarations are skipped and appear
unchanged in the output.  Every function item of the output file has
executable mode. -/
theorem top_level_mode_elimination :
    (∀ (b : Bool) (file : File) (f : ItemFn),
        Item.fnItem f ∈ (visitFile b file).items →
        isSpecOrProofFn f.sig.mode = false) ∧
    (∀ (b : Bool) (g : ImplItemFn),
        isSpecOrProofFn g.sig.mode = true → visitImplItemFn b g = g) ∧
    (∀ (b : Bool) (t : TraitItemFn),
        isSpecOrProofFn t.sig.mode = true → visitTraitItemFn b t = t) := by
  refine ⟨fun b file f hmem => ?_, fun b g h => ?_, fun b t h => ?_⟩
  · have hk := (List.mem_filter.mp hmem).2
    simpa [keepItem, Bool.not_eq_true'] using hk
  · simp [visitImplItemFn, h]
  · simp [visitTraitItemFn, h]

/-- Witness for the amended claim C1, at a one-function file and at a
spec-mode impl method. -/
theorem top_level_mode_elimination_witness :
    (Item.fnItem plainExecFn ∈
      (visitFile false (File.mk [Item.fnItem plainExecFn])).items) ∧
    isSpecOrProofFn plainExecFn.sig.mode = false ∧
    isSpecOrProofFn specImplMethod.sig.mode = true ∧
    visitImplItemFn false specImplMethod = specImplMethod := by
  have hmem : Item.fnItem plainExecFn ∈
      (visitFile false (File.mk [Item.fnItem plainExecFn])).items :=
    List.mem_singleton.mpr rfl
  exact ⟨hmem,
    top_level_mode_elimination.1 false (File.mk [Item.fnItem plainExecFn])
      plainExecFn hmem,
    rfl,
    top_level_mode_elimination.2.1 false specImplMethod rfl⟩

/-- Claim C3, counterexample: a proof-mode impl method with one tracked
parameter survives the visitor unchanged, so this retained function keeps
its tracked parameter: its output parameter count (1) differs from input
count minus ghost/tracked count (0). -/
theorem arity_reduction_counterexample :
    visitFile false proofImplTrackedFile = proofImplTrackedFile ∧
    isGhostOrTrackedArg trackedArg = true ∧
    (visitImplItemFn false proofImplMethodTracked).sig.inputs.length ≠
      proofImplMethodTracked.sig.inputs.length -
        proofImplMethodTracked.sig.inputs.countP isGhostOrTrackedArg := by
  refine ⟨rfl, rfl, ?_⟩
  decide

/-- Claim C3, amended: for every function the visitor actually rewrites
(free functions, and executable-mode trait/impl methods), exactly the
arguments satisfying the ghost/tracked test are removed, the rest keep
their order (the output is a sublist of the input), and the output length
is the input length minus the ghost/tracked count; spec/proof trait and
impl methods keep their parameter lists unchanged. -/
theorem arity_reduction :
    (∀ (b : Bool) (f : ItemFn),
        (visitItemFn b f).sig.inputs =
          f.sig.inputs.filter (fun arg => !isGhostOrTrackedArg arg)) ∧
    (∀ (b : Bool) (g : ImplItemFn),
        (visitImplItemFn b g).sig.inputs =
          if isSpecOrProofFn g.sig.mode then g.sig.inputs
          else g.sig.inputs.filter (fun arg => !isGhostOrTrackedArg arg)) ∧
    (∀ (b : Bool) (t : TraitItemFn),
        (visitTraitItemFn b t).sig.inputs =
          if isSpecOrProofFn t.sig.mode then t.sig.inputs
          else t.sig.inputs.filter (fun arg => !isGhostOrTrackedArg arg)) ∧
    (∀ l : List FnArg,
        (l.filter (fun arg => !isGhostOrTrackedArg arg)).length =
          l.length - l.countP isGhostOrTrackedArg ∧
        (l.filter (fun arg => !isGhostOrTrackedArg arg)).Sublist l) := by
  refine ⟨fun b f => rfl, fun b g => ?_, fun b t => ?_, fun l =>
    ⟨length_filter_not_eq_sub _ l, List.filter_sublist l⟩⟩
  · cases h : isSpecOrProofFn g.sig.mode <;> simp [visitImplItemFn, h]
  · cases h : isSpecOrProofFn t.sig.mode <;> simp [visitTraitItemFn, h]

/-- The field list carried by a `Fields` value. -/
def fieldsOf : Fields → List Field
  | .named fields => fields
  | .unnamed fields => fields
  | .unit => []

/-- Claim C4, confirmed: for every struct and every enum variant, exactly
the ghost/tracked fields are removed, the rest keep their order, and the
output field count is the input count minus the ghost/tracked count. -/
theorem field_reduction :
    (∀ s : ItemStruct, (visitItemStruct s).fields = filterFields s.fields) ∧
    (∀ e : ItemEnum,
        (visitItemEnum e).variants =
          e.variants.map
            (fun v => { v with fields := filterFields v.fields })) ∧
    (∀ fs : Fields,
        fieldsOf (filterFields fs) =
          (fieldsOf fs).filter (fun field => !isGhostOrTrackedField field) ∧
        (fieldsOf (filterFields fs)).length =
          (fieldsOf fs).length -
            (fieldsOf fs).countP isGhostOrTrackedField ∧
        (fieldsOf (filterFields fs)).Sublist (fieldsOf fs)) := by
  refine ⟨fun s => rfl, fun e => rfl, fun fs => ?_⟩
  cases fs with
  | named fields =>
    exact ⟨rfl, length_filter_not_eq_sub _ fields,
      List.filter_sublist fields⟩
  | unnamed fields =>
    exact ⟨rfl, length_filter_not_eq_sub _ fields,
      List.filter_sublist fields⟩
  | unit => exact ⟨rfl, rfl, List.Sublist.refl []⟩

/-- Claim C7, counterexample: with rendering enabled, a retained proof-mode
impl method with a non-empty `requires` clause gets no comment block at
all — the visitor skips spec/proof methods before the rendering step, and
the file passes through unchanged. -/
theorem spec_comment_rendering_counterexample :
    proofImplMethodRequires.sig.spec.requiresClause ≠ none ∧
    visitFile true proofImplRequiresFile = proofImplRequiresFile ∧
    (visitImplItemFn true proofImplMethodRequires).attrs = [] := by
  refine ⟨?_, rfl, rfl⟩
  decide

/-- Claim C7, amended: when rendering is enabled, every function the
visitor rewrites (free functions; executable trait/impl methods) gets
`create_spec_comment_attrs` appended to its attributes: nothing when no
clause is present, otherwise one header line followed by one line per
present clause in the fixed order, each line starting with `///` for
public functions and `//` otherwise, with `decreases` never rendered;
retained spec/proof trait and impl methods get no comment block. -/
theorem spec_comment_rendering :
    (∀ (sp : SignatureSpec) (isPub : Bool),
        createSpecCommentAttrs sp isPub =
          if specHasClause sp then
            ((if isPub then "///" else "//") ++ " ## Verus Annotations") ::
              (specClauseLines sp).map
                (fun c => (if isPub then "///" else "//") ++ " " ++ c)
          else []) ∧
    (∀ (sp : SignatureSpec) (isPub : Bool) (d : Option (List String)),
        createSpecCommentAttrs { sp with decreasesClause := d } isPub =
          createSpecCommentAttrs sp isPub) ∧
    (∀ f : ItemFn,
        (visitItemFn true f).attrs =
          f.attrs ++
            createSpecCommentAttrs f.sig.spec
              (f.vis = Visibility.publicVis)) ∧
    (∀ g : ImplItemFn,
        (visitImplItemFn true g).attrs =
          if isSpecOrProofFn g.sig.mode then g.attrs
          else
            g.attrs ++
              createSpecCommentAttrs g.sig.spec
                (g.vis = Visibility.publicVis)) ∧
    (∀ t : TraitItemFn,
        (visitTraitItemFn true t).attrs =
          if isSpecOrProofFn t.sig.mode then t.attrs
          else t.attrs ++ createSpecCommentAttrs t.sig.spec true) := by
  refine ⟨fun sp isPub => ?_, fun sp isPub d => rfl, fun f => rfl,
    fun g => ?_, fun t => ?_⟩
  · have hraw : createSpecCommentAttrs sp isPub =
        if specClauseLines sp = [] then []
        else
          ((if isPub then "///" else "//") ++ " ## Verus Annotations") ::
            (specClauseLines sp).map
              (fun c => (if isPub then "///" else "//") ++ " " ++ c) := rfl
    rw [hraw]
    by_cases hnil : specClauseLines sp = []
    · simp [hnil, (specClauseLines_eq_nil_iff sp).mp hnil]
    · have htrue : specHasClause sp = true := by
        cases h : specHasClause sp
        · exact absurd ((specClauseLines_eq_nil_iff sp).mpr h) hnil
        · rfl
      simp [hnil, htrue]
  · cases h : isSpecOrProofFn g.sig.mode <;> simp [visitImplItemFn, h]
  · cases h : isSpecOrProofFn t.sig.mode <;> simp [visitTraitItemFn, h]

/-- Claim C9, confirmed: `strip_source` never reads its configuration
argument (and constructs the visitor without handing it the
configuration), so its result is independent of the configuration —
`spec_as_comments`, `keep_empty`, and every other option have no effect
through this entry point. -/
theorem strip_source_config_independent :
    ∀ (parse : List Nat → Except String File) (print : File → List Nat)
      (source : List Nat) (c₁ c₂ : Config),
      stripSource parse print source c₁ = stripSource parse print source c₂ :=
  fun _ _ _ _ _ => rfl

/-- Claim C10, confirmed: wrapper detection is purely substring-based.  In
`let s = "verus! { x }";` the marker occurs inside a string literal, yet
the unwrapper splices it: the output drops the wrapper characters and the
closing material and differs from the input, although the input contains
no top-level wrapper invocation. -/
theorem wrapper_detection_ignores_context :
    unwrapVerusMacros
        (asciiBytes "let s = \"verus! \x7b x \x7d\";") =
      .ok (asciiBytes "let s = \" x \n\";") ∧
    asciiBytes "let s = \" x \n\";" ≠
      asciiBytes "let s = \"verus! \x7b x \x7d\";" := by
  constructor
  · decide
  · decide

/-- Claim C5, counterexample: the scanner does not enter character-literal
mode on the explicit character literal `'a'` — because `a` is alphanumeric
the quote is taken for a lifetime marker and the state is left unchanged.
Consequently, on the input `'a'}` the close brace at position 3 (which,
under the claim's reading, lies outside any literal) is never matched: the
closing quote of the literal is itself mistaken for the opening quote of a
character literal, the brace becomes inert, and the scan returns `none`
instead of `some 3`. -/
theorem char_literal_alnum_counterexample :
    fmbStep 39 (some 97) 0 fmbInit = .step1 fmbInit ∧
    fmbInit.inChar = false ∧
    findMatchingBrace [39, 97, 39, 125] 0 = none := by
  refine ⟨?_, rfl, ?_⟩ <;> decide

/-- Claim C5, amended: outside strings, comments and pending escapes, an
unescaped quote followed by an alphanumeric-or-underscore byte (which
includes every lifetime/label marker) never enters character-literal mode,
while a quote followed by any other byte (such as the literal `'{'`) does;
character literals whose content byte is alphanumeric (such as `'a'`) are
treated as lifetime markers and do not enter character-literal mode. -/
theorem lifetime_vs_char_literal (st : FmbState) (i : Nat) (b : Nat)
    (hS : st.inString = false) (hC : st.inChar = false)
    (hE : st.escapeNext = false) (hL : st.inComment = false)
    (hB : st.inBlockComment = false) :
    fmbStep 39 (some b) i st =
      if isLifetimeStartByte b then .step1 st
      else .step1 { st with inChar := true } := by
  obtain ⟨d, sS, sC, esc, lC, bC⟩ := st
  simp only at hS hC hE hL hB
  subst hS hC hE hL hB
  by_cases hlb : isLifetimeStartByte b <;> simp [fmbStep, hlb]

/-- Witness for the amended claim C5, at the initial scanner state with the
literal `'{'` (content byte 123, not alphanumeric). -/
theorem lifetime_vs_char_literal_witness :
    fmbInit.inString = false ∧ fmbInit.inChar = false ∧
    fmbInit.escapeNext = false ∧ fmbInit.inComment = false ∧
    fmbInit.inBlockComment = false ∧
    fmbStep 39 (some 123) 0 fmbInit =
      (if isLifetimeStartByte 123 then .step1 fmbInit
       else .step1 { fmbInit with inChar := true }) :=
  ⟨rfl, rfl, rfl, rfl, rfl,
    lifetime_vs_char_literal fmbInit 0 123 rfl rfl rfl rfl rfl⟩

/-- Claim C6, confirmed: whenever any of the string, character-literal,
line-comment or block-comment flags is set, a brace byte (open or close)
leaves the scanner state unchanged apart from clearing a pending escape —
in particular the depth is untouched and no match is returned, so braces
inside literals and comments never affect the computed match position.
Concretely, in `"a { b" }` the brace inside the string literal is ignored
and the scan resolves to the real closing brace at position 8. -/
theorem braces_inert_in_literals_and_comments :
    (∀ (ch : Nat) (lookahead : Option Nat) (i : Nat) (st : FmbState),
        (st.inString || st.inChar || st.inComment ||
            st.inBlockComment) = true →
        (ch = 123 ∨ ch = 125) →
        fmbStep ch lookahead i st = .step1 { st with escapeNext := false }) ∧
    findMatchingBrace [34, 97, 32, 123, 32, 98, 34, 32, 125] 0 = some 8 := by
  constructor
  · intro ch lookahead i st hmode hbrace
    obtain ⟨d, sS, sC, esc, lC, bC⟩ := st
    rcases hbrace with rfl | rfl <;>
      cases sS <;> cases sC <;> cases esc <;> cases lC <;> cases bC <;>
      cases lookahead <;> simp_all [fmbStep]
  · decide

/-- Witness for claim C6: an open brace inside a string literal. -/
theorem braces_inert_witness :
    (FmbState.inString ⟨1, true, false, false, false, false⟩ ||
        FmbState.inChar ⟨1, true, false, false, false, false⟩ ||
        FmbState.inComment ⟨1, true, false, false, false, false⟩ ||
        FmbState.inBlockComment ⟨1, true, false, false, false, false⟩) =
      true ∧
    ((123 : Nat) = 123 ∨ (123 : Nat) = 125) ∧
    fmbStep 123 none 4 ⟨1, true, false, false, false, false⟩ =
      .step1 { (⟨1, true, false, false, false, false⟩ : FmbState) with
        escapeNext := false } :=
  ⟨rfl, Or.inl rfl,
    braces_inert_in_literals_and_comments.1 123 none 4
      ⟨1, true, false, false, false, false⟩ rfl (Or.inl rfl)⟩

/-- Claim C8, confirmed: an input containing a wrapper invocation whose
opening brace is never matched (the scan exhausts the input with positive
depth) makes the unwrapper return the structural unmatched-braces error —
carried as the `ConfigError` variant with no position guess — and the
pipeline entry point aborts with the same error, producing no output text.
The input shape is an arbitrary marker-free prefix, the wrapper opener
`verus!{`, and an arbitrary tail on which the brace scan fails. -/
theorem unmatched_wrapper_aborts (pre tail : List Nat)
    (parse : List Nat → Except String File) (print : File → List Nat)
    (c : Config) (hv : 118 ∉ pre)
    (hfmb : fmbRun tail (pre.length + 7) fmbInit = none) :
    unwrapVerusMacros (pre ++ verusBangBytes ++ 123 :: tail) =
      .error (.configError "Unmatched braces in verus! macro") ∧
    stripSource parse print (pre ++ verusBangBytes ++ 123 :: tail) c =
      .error (.configError "Unmatched braces in verus! macro") := by
  have hmain : unwrapVerusMacros (pre ++ verusBangBytes ++ 123 :: tail) =
      .error (.configError "Unmatched braces in verus! macro") := by
    unfold unwrapVerusMacros
    rw [List.append_assoc]
    have hlen : (pre ++ (verusBangBytes ++ 123 :: tail)).length =
        pre.length + (tail.length + 7) := by
      simp [verusBangBytes]
    rw [hlen,
      unwrapRun_append_no_v pre hv (tail.length + 7)
        (verusBangBytes ++ 123 :: tail) 0 []]
    have := unwrapRun_wrapper_unmatched tail (0 + pre.length) ([] ++ pre)
      (by simpa using hfmb)
    simpa using this
  refine ⟨hmain, ?_⟩
  unfold stripSource
  rw [hmain]

/-- Witness for claim C8: the bare input `verus!{`. -/
theorem unmatched_wrapper_aborts_witness :
    (118 ∉ ([] : List Nat)) ∧
    fmbRun [] (([] : List Nat).length + 7) fmbInit = none ∧
    unwrapVerusMacros (([] : List Nat) ++ verusBangBytes ++ 123 :: []) =
      .error (.configError "Unmatched braces in verus! macro") :=
  ⟨by simp, rfl,
    (unmatched_wrapper_aborts [] [] toyParse toyPrint Config.new
        (by simp) rfl).1⟩

/-! ## Failure of text-level idempotence

The wrapper unwrapper is context-blind (see
`wrapper_detection_ignores_context`), so a wrapper marker sitting inside a
string literal of the first pass's *output* is spliced by the second pass:
both passes succeed, yet the texts differ.  The family below realises this
with the input

`verus! { fn f() { let s = "verus! { y }"; } }`

whose first pass succeeds (the context-aware brace scan keeps the literal
intact) and prints a function whose string literal still contains
`verus! { y }`; the second pass's unwrapper fires inside that literal. -/

/-- The counterexample input: a wrapper block around a function whose body
binds a string literal containing the wrapper marker. -/
def cexSourceText : List Nat :=
  asciiBytes "verus! \x7b fn f() \x7b let s = \"verus! \x7b y \x7d\"; \x7d \x7d"

/-- First-pass unwrapper output: the wrapper removed, literal intact. -/
def cexPreText : List Nat :=
  asciiBytes " fn f() \x7b let s = \"verus! \x7b y \x7d\"; \x7d \n"

/-- First-pass printed output: the function, literal intact. -/
def cexOutText : List Nat :=
  asciiBytes "fn f() \x7b let s = \"verus! \x7b y \x7d\"; \x7d\n"

/-- Second-pass output: the unwrapper spliced inside the string literal. -/
def cexOut2Text : List Nat :=
  asciiBytes "fn f() \x7b let s = \" y \n\"; \x7d\n"

/-- The tagged tree of `cexPreText`: one executable function binding the
string literal `verus! { y }`. -/
def cexStringTree : File :=
  ⟨[.fnItem
      { attrs := []
        vis := .inherited
        sig :=
          { ident := "f", mode := .default, spec := erasedSpec,
            inputs := [] }
        block :=
          .mk [.localStmt false false
            (some (.strLit (asciiBytes "verus! \x7b y \x7d")))] }]⟩

/-- The tagged tree of `cexOut2Text`: the same function, its literal now
holding the spliced text. -/
def cexStringTree2 : File :=
  ⟨[.fnItem
      { attrs := []
        vis := .inherited
        sig :=
          { ident := "f", mode := .default, spec := erasedSpec,
            inputs := [] }
        block :=
          .mk [.localStmt false false
            (some (.strLit (asciiBytes " y \n")))] }]⟩

/-- Modelled from the spec: the parser collaborator (`verus_syn`, absent
from the extracted sources), specialised to the two texts this pipeline
run visits — each parses to the function with its string literal, per the
spec's parse contract (a tagged tree of the text's items). -/
def cexParse (t : List Nat) : Except String File :=
  if t = cexPreText then .ok cexStringTree
  else if t = cexOut2Text then .ok cexStringTree2
  else .error "unexpected text"

/-- Modelled from the spec: the printer collaborator
(`verus_prettyplease`, absent from the extracted sources), on the
one-function one-literal tree family — it must reproduce the string
literal's content, since the spec requires the printed source to preserve
semantic content. -/
def cexPrint : File → List Nat
  | ⟨[.fnItem fn]⟩ =>
    match fn.block with
    | .mk [.localStmt _ _ (some (.strLit content))] =>
      asciiBytes "fn f() \x7b let s = \"" ++ content ++ asciiBytes "\"; \x7d\n"
    | _ => []
  | _ => []

/-- Claim C2, counterexample: text-level idempotence fails.  On
`cexSourceText` the first strip pass succeeds and outputs `cexOutText`,
whose string literal still contains the wrapper marker; stripping that
output also succeeds but splices inside the literal, returning the
different text `cexOut2Text` — so `strip(strip(s)) ≠ strip(s)` on a
well-formed input on which strip succeeds. -/
theorem strip_source_not_idempotent :
    stripSource cexParse cexPrint cexSourceText Config.new =
      .ok cexOutText ∧
    stripSource cexParse cexPrint cexOutText Config.new =
      .ok cexOut2Text ∧
    cexOut2Text ≠ cexOutText := by
  refine ⟨?_, ?_, ?_⟩ <;> decide

/-- Claim C2, amended: the stripping pipeline is idempotent on every input
whose first-pass output is itself left unchanged by the wrapper unwrapper
(in particular, whenever the printed output contains no wrapper-marker
occurrence) — without that condition a second pass can splice a marker
hidden in a string literal, as `strip_source_not_idempotent` shows.  The
parser and printer are collaborator crates kept abstract; hypothesis
`hpp` records their spec round-trip contract on the one file at hand, and
`hwf` is the amendment's condition on the first pass's output.  Under
them, `strip_source` on `s` succeeds with output
`print (visitFile false f)`, and running `strip_source` again on that
output returns it unchanged, because the visitor is idempotent
(`visitFile_idem`): no node that the visitor removes remains after the
first pass. -/
theorem strip_source_idempotent
    (parse : List Nat → Except String File) (print : File → List Nat)
    (c : Config) (s pre : List Nat) (f : File)
    (hu : unwrapVerusMacros s = .ok pre)
    (hp : parse pre = .ok f)
    (hpp : parse (print (visitFile false f)) = .ok (visitFile false f))
    (hwf : unwrapVerusMacros (print (visitFile false f)) =
      .ok (print (visitFile false f))) :
    stripSource parse print s c = .ok (print (visitFile false f)) ∧
    stripSource parse print (print (visitFile false f)) c =
      .ok (print (visitFile false f)) := by
  constructor
  · simp [stripSource, hu, hp]
  · simp [stripSource, hwf, hpp, visitFile_idem]

/-- Witness for claim C2: the empty source with the trivial parser and
printer collaborators. -/
theorem strip_source_idempotent_witness :
    unwrapVerusMacros [] = .ok [] ∧
    toyParse [] = .ok (File.mk []) ∧
    toyParse (toyPrint (visitFile false (File.mk []))) =
      .ok (visitFile false (File.mk [])) ∧
    unwrapVerusMacros (toyPrint (visitFile false (File.mk []))) =
      .ok (toyPrint (visitFile false (File.mk []))) ∧
    stripSource toyParse toyPrint [] Config.new =
      .ok (toyPrint (visitFile false (File.mk []))) ∧
    stripSource toyParse toyPrint (toyPrint (visitFile false (File.mk [])))
        Config.new =
      .ok (toyPrint (visitFile false (File.mk []))) := by
  refine ⟨rfl, rfl, rfl, rfl, ?_, ?_⟩
  · exact (strip_source_idempotent toyParse toyPrint Config.new [] []
      (File.mk []) rfl rfl rfl rfl).1
  · exact (strip_source_idempotent toyParse toyPrint Config.new [] []
      (File.mk []) rfl rfl rfl rfl).2

end VStrip
